import Mathlib

/- Verification of the wallet-configuration resolution subsystem of
stackmate-core (src/config.rs): descriptor branch derivation, network
inference, node-address normalization, protocol dispatch, embedded
credential parsing and error classification.

Rust strings are modelled as lists of characters.  Rust `Result` plus the
possibility of an index-out-of-bounds panic is modelled by `RunResult`.
The external bdk blockchain-client library is modelled as an environment
`Env` of opaque collaborator functions, so all theorems quantify over the
behaviour of the external library. -/

namespace Stackmate

abbrev Str := List Char

/-- Conversion from a Lean string literal to the character-list model. -/
abbrev chars (s : String) : Str := s.data

/-- Embeds Rust `str::contains(pat)`: substring occurrence test. -/
def strContains : Str → Str → Bool
  | [], pat => pat.isEmpty
  | c :: rest, pat => pat.isPrefixOf (c :: rest) || strContains rest pat

/-- Embeds Rust `str::replace("/*", rep)` as called at config.rs:30-31 and
120-122: every non-overlapping occurrence of the wildcard marker `/*`,
scanning left to right, is replaced by `rep`. -/
def replaceWildcard (rep : Str) : Str → Str
  | [] => []
  | [c] => [c]
  | c :: c2 :: rest2 =>
    if c = '/' ∧ c2 = '*' then rep ++ replaceWildcard rep rest2
    else c :: replaceWildcard rep (c2 :: rest2)

/-- Index of the first occurrence of `pat` in the second argument, if any. -/
def findPat (pat : Str) : Str → Option Nat
  | [] => if pat.isEmpty then some 0 else none
  | c :: rest =>
    if pat.isPrefixOf (c :: rest) then some 0
    else (findPat pat rest).map (fun n => n + 1)

/-- Fuel-indexed worker for `splitOnStr`; fuel `s.length + 1` always
suffices because every step consumes at least one character of `s`. -/
def splitOnAuxF (pat : Str) : Nat → Str → List Str
  | 0, s => [s]
  | fuel + 1, s =>
    match findPat pat s with
    | none => [s]
    | some i => List.take i s :: splitOnAuxF pat fuel (List.drop (i + pat.length) s)

/-- Embeds Rust `str::split(pat).collect::<Vec<_>>()` for a string pattern,
as called with `"?auth="` at config.rs:79 and 190. -/
def splitOnStr (s pat : Str) : List Str :=
  if pat.isEmpty then [s] else splitOnAuxF pat (s.length + 1) s

/-- Embeds Rust `str::split(sep).collect::<Vec<_>>()` for a `char`
separator, as called with `:` at config.rs:84-85 and 195-196. -/
def splitChar (sep : Char) : Str → List Str
  | [] => [[]]
  | c :: rest =>
    if c = sep then [] :: splitChar sep rest
    else
      match splitChar sep rest with
      | [] => [[c]]
      | s :: ss => (c :: s) :: ss

/-- bitcoin::network::constants::Network. -/
inductive Network where
  | Bitcoin
  | Testnet
  | Signet
  | Regtest
deriving DecidableEq, Repr

/-- Modelled from the spec: the error-kind taxonomy of the crate module
`e` (not under src/); section 3 ErrorRecord lists kinds Network and
Internal. -/
inductive ErrorKind where
  | Network
  | Internal
deriving DecidableEq, Repr

/-- Modelled from the spec: `S5Error` of the crate module `e` (not under
src/); section 3 ErrorRecord: a kind plus a message text. -/
structure S5Error where
  kind : ErrorKind
  message : Str
deriving DecidableEq, Repr

/-- Modelled from the spec: `S5Error::new(kind, message)` of the crate
module `e` (not under src/) builds the ErrorRecord carrying the given kind
and the given message unchanged. -/
def S5Error.new (kind : ErrorKind) (message : Str) : S5Error :=
  ⟨kind, message⟩

/-- bdk `ElectrumBlockchainConfig` (fields used at config.rs:50-66 and
178-184). -/
structure ElectrumBlockchainConfig where
  url : Str
  socks5 : Option Str
  retry : Nat
  timeout : Option Nat
  stop_gap : Nat
deriving DecidableEq, Repr

/-- bdk rpc `Auth` (constructors used at config.rs:80-87). -/
inductive Auth where
  | None
  | UserPass (username : Str) (password : Str)
deriving DecidableEq, Repr

/-- bdk rpc `RpcConfig` (fields used at config.rs:97-103 and 199-205). -/
structure RpcConfig where
  url : Str
  auth : Auth
  network : Network
  wallet_name : Str
  skip_blocks : Option Nat
deriving DecidableEq, Repr

/-- Opaque handle to a constructed Electrum client; the concrete value is
chosen by the environment. -/
structure ElectrumBlockchain where
  handle : Nat
deriving DecidableEq, Repr

/-- Opaque handle to a constructed RPC client; the concrete value is
chosen by the environment. -/
structure RpcBlockchain where
  handle : Nat
deriving DecidableEq, Repr

/-- bdk `AnyBlockchain`. -/
inductive AnyBlockchain where
  | Electrum (client : ElectrumBlockchain)
  | Rpc (client : RpcBlockchain)
deriving DecidableEq, Repr

/-- bdk `AnyBlockchainConfig`. -/
inductive AnyBlockchainConfig where
  | Electrum (conf : ElectrumBlockchainConfig)
  | Rpc (conf : RpcConfig)
deriving DecidableEq, Repr

/-- electrum_client errors as matched at config.rs:146-151: the low-level
I/O variant carries the display string of the wrapped io error; every
other variant is collapsed into one constructor carrying its display
string. -/
inductive ElectrumError where
  | IOError (c_error : Str)
  | OtherVariant (display : Str)
deriving DecidableEq, Repr

/-- bdk core_rpc errors as matched at config.rs:162-167: the low-level
I/O variant carries the display string of the wrapped io error; every
other variant is collapsed into one constructor carrying its display
string. -/
inductive RpcError where
  | Io (c_error : Str)
  | OtherVariant (display : Str)
deriving DecidableEq, Repr

/-- bdk `Error` as matched at config.rs:145-153 and 161-169. -/
inductive BdkError where
  | Electrum (e : ElectrumError)
  | Rpc (e : RpcError)
  | OtherVariant (display : Str)
deriving DecidableEq, Repr

/-- Display string of an electrum error (Rust `to_string`). -/
def ElectrumError.toStr : ElectrumError → Str
  | .IOError c_error => c_error
  | .OtherVariant display => display

/-- Display string of an rpc error (Rust `to_string`). -/
def RpcError.toStr : RpcError → Str
  | .Io c_error => c_error
  | .OtherVariant display => display

/-- Display string of a bdk error (Rust `to_string`). -/
def BdkError.toStr : BdkError → Str
  | .Electrum e => e.toStr
  | .Rpc e => e.toStr
  | .OtherVariant display => display

/-- The secp256k1 curve context built by `Secp256k1::new()` at
config.rs:92; opaque to this subsystem. -/
structure Secp256k1 where
  ctx : Unit
deriving DecidableEq, Repr

/-- `Secp256k1::new()`. -/
def Secp256k1.new : Secp256k1 := ⟨()⟩

/-- Fee rate returned by `estimate_fee`; opaque to this subsystem. -/
abbrev FeeRate := Nat

/-- The external blockchain-client library (bdk), modelled as an opaque
collaborator: construction of either backend, canonical wallet naming,
and the fee-estimate capability used by the health probe. -/
structure Env where
  electrumFromConfig : ElectrumBlockchainConfig → Except BdkError ElectrumBlockchain
  rpcFromConfig : RpcConfig → Except BdkError RpcBlockchain
  wallet_name_from_descriptor : Str → Option Str → Network → Secp256k1 → Except Str Str
  estimate_fee : AnyBlockchain → Nat → Except BdkError FeeRate

/-- The resolved configuration value (config.rs:13-18). -/
structure WalletConfig where
  deposit_desc : Str
  change_desc : Str
  network : Network
  client : Option AnyBlockchain
deriving DecidableEq, Repr

/-- Outcome of running a Rust function that returns `Result` but may also
panic on an out-of-bounds index: `ok`, `err`, or `panicked`. -/
inductive RunResult (α : Type) where
  | ok (a : α)
  | err (e : S5Error)
  | panicked
deriving DecidableEq, Repr

/-- config.rs:20. -/
def DEFAULT : Str := chars "default"

/-- config.rs:21. -/
def DEFAULT_TESTNET_NODE : Str := chars "ssl://electrum.blockstream.info:60002"

/-- config.rs:22. -/
def DEFAULT_MAINNET_NODE : Str := chars "ssl://electrum.blockstream.info:50002"

/-- Network inference from the raw descriptor text (config.rs:32-38,
identically at 123-129): Bitcoin iff the text contains `xpub` or `xprv`,
otherwise Testnet. -/
def networkInference (descriptor : Str) : Network :=
  if strContains descriptor (chars "xpub") || strContains descriptor (chars "xprv") then
    Network.Bitcoin
  else
    Network.Testnet

/-- Node-address normalization (config.rs:40-47): an address containing
the sentinel token is replaced by the hardcoded default endpoint for the
network; any other address passes through unmodified. -/
def resolveNodeAddress (network : Network) (node_address : Str) : Str :=
  if strContains node_address DEFAULT then
    match network with
    | Network.Bitcoin => DEFAULT_MAINNET_NODE
    | _ => DEFAULT_TESTNET_NODE
  else
    node_address

/-- Electrum configuration construction (config.rs:50-66): retry 1 and
gap limit 1000 always; timeout 5 when no proxy is given, unset when a
proxy is given, with the proxy forwarded verbatim. -/
def electrumConfigOf (node_address : Str) (socks5 : Option Str) : ElectrumBlockchainConfig :=
  if socks5.isNone then
    { url := node_address, socks5 := none, retry := 1, timeout := some 5, stop_gap := 1000 }
  else
    { url := node_address, socks5 := socks5, retry := 1, timeout := none, stop_gap := 1000 }

/-- Credential parsing from the `?auth=` segment (config.rs:80-87,
identically at 191-198): empty segment means no credentials; otherwise the
segment is split on `:` and the fields at indices 0 and 1 become username
and password.  `none` models the out-of-bounds panic of index 1 when the
non-empty segment contains no colon. -/
def parseAuth (seg : Str) : Option Auth :=
  if seg.isEmpty then some Auth.None
  else
    match List.get? (splitChar ':' seg) 0, List.get? (splitChar ':' seg) 1 with
    | some username, some password => some (Auth.UserPass username password)
    | _, _ => none

/-- config.rs:140-174 `create_blockchain_client`: hands the configuration
to the external library and classifies any library error; the backend's
own low-level I/O variant becomes a Network-kind error carrying the io
error display string, everything else becomes Internal-kind carrying the
error display string. -/
def create_blockchain_client (env : Env) (config : AnyBlockchainConfig) :
    Except S5Error AnyBlockchain :=
  match config with
  | AnyBlockchainConfig.Electrum conf =>
    match env.electrumFromConfig conf with
    | Except.error bdk_error =>
      match bdk_error with
      | BdkError.Electrum electrum_error =>
        match electrum_error with
        | ElectrumError.IOError c_error =>
          Except.error (S5Error.new ErrorKind.Network c_error)
        | e_error => Except.error (S5Error.new ErrorKind.Internal e_error.toStr)
      | e_error => Except.error (S5Error.new ErrorKind.Internal e_error.toStr)
    | Except.ok result => Except.ok (AnyBlockchain.Electrum result)
  | AnyBlockchainConfig.Rpc conf =>
    match env.rpcFromConfig conf with
    | Except.error bdk_error =>
      match bdk_error with
      | BdkError.Rpc rpc_error =>
        match rpc_error with
        | RpcError.Io c_error =>
          Except.error (S5Error.new ErrorKind.Network c_error)
        | r_error => Except.error (S5Error.new ErrorKind.Internal r_error.toStr)
      | r_error => Except.error (S5Error.new ErrorKind.Internal r_error.toStr)
    | Except.ok result => Except.ok (AnyBlockchain.Rpc result)

/-- config.rs:25-118 `WalletConfig::new`: derive branch descriptors and
the network, normalize the node address, dispatch on the address shape,
parse credentials for the full-node form, build the backend configuration,
and construct the client; any construction failure is re-wrapped as an
Internal-kind error carrying the classified message. -/
def WalletConfig.new (env : Env) (descriptor node_address : Str) (socks5 : Option Str) :
    RunResult WalletConfig :=
  let deposit_desc : Str := replaceWildcard (chars "/0/*") descriptor
  let change_desc : Str := replaceWildcard (chars "/1/*") descriptor
  let network : Network := networkInference descriptor
  let node_address : Str := resolveNodeAddress network node_address
  if strContains node_address (chars "electrum") then
    let config := electrumConfigOf node_address socks5
    match create_blockchain_client env (AnyBlockchainConfig.Electrum config) with
    | Except.error e => RunResult.err (S5Error.new ErrorKind.Internal e.message)
    | Except.ok client =>
      RunResult.ok ⟨deposit_desc, change_desc, network, some client⟩
  else if strContains node_address (chars "http") then
    match splitOnStr node_address (chars "?auth=") with
    | parts0 :: parts1 :: _ =>
      match parseAuth parts1 with
      | none => RunResult.panicked
      | some auth =>
        match env.wallet_name_from_descriptor descriptor (some change_desc) network Secp256k1.new with
        | Except.error e => RunResult.err (S5Error.new ErrorKind.Internal e)
        | Except.ok wallet_name =>
          let config : RpcConfig :=
            { url := parts0, auth := auth, network := network,
              wallet_name := wallet_name, skip_blocks := none }
          match create_blockchain_client env (AnyBlockchainConfig.Rpc config) with
          | Except.error e => RunResult.err (S5Error.new ErrorKind.Internal e.message)
          | Except.ok client =>
            RunResult.ok ⟨deposit_desc, change_desc, network, some client⟩
    | _ => RunResult.panicked
  else
    RunResult.err (S5Error.new ErrorKind.Internal (chars "Invalid Node Address."))

/-- config.rs:120-137 `WalletConfig::new_offline`: derive branch
descriptors and the network exactly as the online path and return with no
client. -/
def WalletConfig.new_offline (descriptor : Str) : RunResult WalletConfig :=
  let deposit_desc : Str := replaceWildcard (chars "/0/*") descriptor
  let change_desc : Str := replaceWildcard (chars "/1/*") descriptor
  let network : Network := networkInference descriptor
  RunResult.ok ⟨deposit_desc, change_desc, network, none⟩

/-- config.rs:176-219 `_check_client`: build a throwaway client by the
same dispatch logic as resolution, with the fixed placeholder wallet name
`ping` for the full-node form, then issue one fee estimate with a 1-block
confirmation target. -/
def _check_client (env : Env) (network : Network) (node_address : Str) : RunResult Bool :=
  let clientR : RunResult AnyBlockchain :=
    if strContains node_address (chars "electrum") then
      let config : ElectrumBlockchainConfig :=
        { url := node_address, socks5 := none, retry := 1, timeout := some 5, stop_gap := 1000 }
      match create_blockchain_client env (AnyBlockchainConfig.Electrum config) with
      | Except.error e => RunResult.err (S5Error.new ErrorKind.Internal e.message)
      | Except.ok client => RunResult.ok client
    else if strContains node_address (chars "http") then
      match splitOnStr node_address (chars "?auth=") with
      | parts0 :: parts1 :: _ =>
        match parseAuth parts1 with
        | none => RunResult.panicked
        | some auth =>
          let config : RpcConfig :=
            { url := parts0, auth := auth, network := network,
              wallet_name := chars "ping", skip_blocks := none }
          match create_blockchain_client env (AnyBlockchainConfig.Rpc config) with
          | Except.error e => RunResult.err (S5Error.new ErrorKind.Internal e.message)
          | Except.ok client => RunResult.ok client
      | _ => RunResult.panicked
    else
      RunResult.err (S5Error.new ErrorKind.Internal (chars "Invalid Node Address."))
  match clientR with
  | RunResult.ok client =>
    match env.estimate_fee client 1 with
    | Except.ok _ => RunResult.ok true
    | Except.error e => RunResult.err (S5Error.new ErrorKind.Network e.toStr)
  | RunResult.err e => RunResult.err e
  | RunResult.panicked => RunResult.panicked

/-- A benign environment: every collaborator call succeeds. -/
def env0 : Env :=
  { electrumFromConfig := fun _ => Except.ok ⟨0⟩
    rpcFromConfig := fun _ => Except.ok ⟨0⟩
    wallet_name_from_descriptor := fun _ _ _ _ => Except.ok (chars "w1")
    estimate_fee := fun _ _ => Except.ok 1 }

/-- An environment whose Electrum construction fails with a low-level
I/O error. -/
def env1 : Env :=
  { electrumFromConfig := fun _ => Except.error (BdkError.Electrum (ElectrumError.IOError (chars "io down")))
    rpcFromConfig := fun _ => Except.error (BdkError.OtherVariant (chars "rpc down"))
    wallet_name_from_descriptor := fun _ _ _ _ => Except.ok (chars "w1")
    estimate_fee := fun _ _ => Except.ok 1 }

theorem chars_wildcard : chars "/*" = ['/', '*'] := rfl

theorem strContains_cons (c : Char) (rest pat : Str) :
    strContains (c :: rest) pat = (pat.isPrefixOf (c :: rest) || strContains rest pat) := rfl

/-- A string with no occurrence of the wildcard marker is left unchanged
by `replaceWildcard`. -/
theorem replaceWildcard_id (rep : Str) :
    ∀ s : Str, strContains s (chars "/*") = false → replaceWildcard rep s = s := by
  intro s
  induction s with
  | nil => intro _; rfl
  | cons c rest ih =>
    intro h
    rw [strContains_cons, Bool.or_eq_false_iff] at h
    obtain ⟨h1, h2⟩ := h
    cases rest with
    | nil => rfl
    | cons c2 rest2 =>
      have hcond : ¬(c = '/' ∧ c2 = '*') := by
        rintro ⟨e1, e2⟩
        subst e1; subst e2
        rw [chars_wildcard] at h1
        simp [List.isPrefixOf] at h1
      simp only [replaceWildcard, if_neg hcond]
      rw [ih h2]

/-- `replaceWildcard` on a string with a marker occurrence after a
marker-free prefix replaces that occurrence and continues on the
suffix. -/
theorem replaceWildcard_once (rep : Str) :
    ∀ pre post : Str, strContains pre (chars "/*") = false →
      replaceWildcard rep (pre ++ '/' :: '*' :: post) = pre ++ rep ++ replaceWildcard rep post := by
  intro pre
  induction pre with
  | nil =>
    intro post _
    simp [replaceWildcard]
  | cons c pre2 ih =>
    intro post h
    rw [strContains_cons, Bool.or_eq_false_iff] at h
    obtain ⟨h1, h2⟩ := h
    cases pre2 with
    | nil =>
      have hcond : ¬(c = '/' ∧ '/' = '*') := by
        rintro ⟨_, e2⟩
        exact absurd e2 (by decide)
      simp only [List.nil_append, List.cons_append, replaceWildcard, if_neg hcond]
      simp [List.append_assoc]
    | cons c2 pre3 =>
      have hcond : ¬(c = '/' ∧ c2 = '*') := by
        rintro ⟨e1, e2⟩
        subst e1; subst e2
        rw [chars_wildcard] at h1
        simp [List.isPrefixOf] at h1
      have ihx := ih post h2
      simp only [List.cons_append] at ihx ⊢
      simp only [replaceWildcard, if_neg hcond]
      rw [ihx]

/-- Splitting on a separator-free prefix followed by the separator peels
off the prefix as the first field. -/
theorem splitChar_append (sep : Char) :
    ∀ u v : Str, sep ∉ u → splitChar sep (u ++ sep :: v) = u :: splitChar sep v := by
  intro u
  induction u with
  | nil =>
    intro v _
    simp [splitChar]
  | cons c u2 ih =>
    intro v h
    have hc : ¬(c = sep) := fun e => h (e ▸ List.mem_cons_self c u2)
    have h2 : sep ∉ u2 := fun m => h (List.mem_cons_of_mem c m)
    simp only [List.cons_append, splitChar, if_neg hc, List.append_eq]
    rw [ih v h2]

/-- Splitting a separator-free string yields that string as the single
field. -/
theorem splitChar_of_not_mem (sep : Char) :
    ∀ u : Str, sep ∉ u → splitChar sep u = [u] := by
  intro u
  induction u with
  | nil => intro _; rfl
  | cons c u2 ih =>
    intro h
    have hc : ¬(c = sep) := fun e => h (e ▸ List.mem_cons_self c u2)
    have h2 : sep ∉ u2 := fun m => h (List.mem_cons_of_mem c m)
    simp only [splitChar, if_neg hc, ih h2]

/-- Every successful online resolution returns the branch descriptors and
network derived from the descriptor, and carries a client handle. -/
theorem new_ok_fields (env : Env) (d a : Str) (s5 : Option Str) (cfg : WalletConfig) :
    WalletConfig.new env d a s5 = RunResult.ok cfg →
      cfg.deposit_desc = replaceWildcard (chars "/0/*") d
      ∧ cfg.change_desc = replaceWildcard (chars "/1/*") d
      ∧ cfg.network = networkInference d
      ∧ ∃ c, cfg.client = some c := by
  intro h
  simp only [WalletConfig.new] at h
  split at h
  · split at h
    · exact absurd h (by simp)
    · rename_i client heq
      injection h with h
      subst h
      exact ⟨rfl, rfl, rfl, client, rfl⟩
  · split at h
    · split at h
      · split at h
        · exact absurd h (by simp)
        · split at h
          · exact absurd h (by simp)
          · split at h
            · exact absurd h (by simp)
            · rename_i client heq
              injection h with h
              subst h
              exact ⟨rfl, rfl, rfl, client, rfl⟩
      · exact absurd h (by simp)
    · exact absurd h (by simp)

/-- Congruence: resolution depends on the caller-supplied node address
only through `resolveNodeAddress`. -/
theorem new_addr_congr (env : Env) (d : Str) (s5 : Option Str) (a1 a2 : Str) :
    resolveNodeAddress (networkInference d) a1 = resolveNodeAddress (networkInference d) a2 →
    WalletConfig.new env d a1 s5 = WalletConfig.new env d a2 s5 := by
  intro h
  simp only [WalletConfig.new]
  rw [h]

/-- Claim C1, counterexample: with an environment whose Electrum
construction fails with the backend's own low-level I/O error variant
(message io down), resolution via WalletConfig.new returns the error with
Internal kind, not Network kind, because config.rs:69 re-wraps the
classified error with ErrorKind::Internal. -/
theorem io_error_internal_kind_cex :
    WalletConfig.new env1 (chars "wpkh(a/*)") (chars "ssl://electrum.x:50001") none
      = RunResult.err (S5Error.new ErrorKind.Internal (chars "io down"))
    ∧ (S5Error.new ErrorKind.Internal (chars "io down")).kind ≠ ErrorKind.Network := by
  decide

/-- Claim C1 (amended): inside create_blockchain_client, a low-level I/O
failure surfaced through the constructed backend's own I/O error variant
is classified as Network kind and any other backend error as Internal
kind, in both cases carrying the stringified underlying message
unchanged; however WalletConfig.new re-wraps every client-construction
failure as an Internal-kind error (preserving the message), so a
relay-backend I/O failure during resolution via WalletConfig.new reaches
the caller with Internal kind, not Network kind. -/
theorem create_client_error_classification (env : Env) (conf : ElectrumBlockchainConfig)
    (rconf : RpcConfig) (c d : Str) :
    (env.electrumFromConfig conf = Except.error (BdkError.Electrum (ElectrumError.IOError c)) →
      create_blockchain_client env (AnyBlockchainConfig.Electrum conf)
        = Except.error (S5Error.new ErrorKind.Network c))
    ∧ (env.electrumFromConfig conf = Except.error (BdkError.Electrum (ElectrumError.OtherVariant d)) →
      create_blockchain_client env (AnyBlockchainConfig.Electrum conf)
        = Except.error (S5Error.new ErrorKind.Internal d))
    ∧ (∀ re, env.electrumFromConfig conf = Except.error (BdkError.Rpc re) →
      create_blockchain_client env (AnyBlockchainConfig.Electrum conf)
        = Except.error (S5Error.new ErrorKind.Internal (BdkError.Rpc re).toStr))
    ∧ (env.electrumFromConfig conf = Except.error (BdkError.OtherVariant d) →
      create_blockchain_client env (AnyBlockchainConfig.Electrum conf)
        = Except.error (S5Error.new ErrorKind.Internal d))
    ∧ (env.rpcFromConfig rconf = Except.error (BdkError.Rpc (RpcError.Io c)) →
      create_blockchain_client env (AnyBlockchainConfig.Rpc rconf)
        = Except.error (S5Error.new ErrorKind.Network c))
    ∧ (env.rpcFromConfig rconf = Except.error (BdkError.Rpc (RpcError.OtherVariant d)) →
      create_blockchain_client env (AnyBlockchainConfig.Rpc rconf)
        = Except.error (S5Error.new ErrorKind.Internal d))
    ∧ (∀ ee, env.rpcFromConfig rconf = Except.error (BdkError.Electrum ee) →
      create_blockchain_client env (AnyBlockchainConfig.Rpc rconf)
        = Except.error (S5Error.new ErrorKind.Internal (BdkError.Electrum ee).toStr))
    ∧ (env.rpcFromConfig rconf = Except.error (BdkError.OtherVariant d) →
      create_blockchain_client env (AnyBlockchainConfig.Rpc rconf)
        = Except.error (S5Error.new ErrorKind.Internal d))
    ∧ (∀ d2 addr s5 k m,
      strContains (resolveNodeAddress (networkInference d2) addr) (chars "electrum") = true →
      create_blockchain_client env
          (AnyBlockchainConfig.Electrum
            (electrumConfigOf (resolveNodeAddress (networkInference d2) addr) s5))
        = Except.error (S5Error.new k m) →
      WalletConfig.new env d2 addr s5 = RunResult.err (S5Error.new ErrorKind.Internal m))
    ∧ (∀ d2 addr s5 k m p0 p1 rest auth wn,
      strContains (resolveNodeAddress (networkInference d2) addr) (chars "electrum") = false →
      strContains (resolveNodeAddress (networkInference d2) addr) (chars "http") = true →
      splitOnStr (resolveNodeAddress (networkInference d2) addr) (chars "?auth=")
        = p0 :: p1 :: rest →
      parseAuth p1 = some auth →
      env.wallet_name_from_descriptor d2 (some (replaceWildcard (chars "/1/*") d2))
          (networkInference d2) Secp256k1.new = Except.ok wn →
      create_blockchain_client env
          (AnyBlockchainConfig.Rpc ⟨p0, auth, networkInference d2, wn, none⟩)
        = Except.error (S5Error.new k m) →
      WalletConfig.new env d2 addr s5 = RunResult.err (S5Error.new ErrorKind.Internal m)) := by
  refine ⟨?_, ?_, ?_, ?_, ?_, ?_, ?_, ?_, ?_, ?_⟩
  · intro h; simp [create_blockchain_client, h]
  · intro h; simp [create_blockchain_client, h, ElectrumError.toStr]
  · intro re h; simp [create_blockchain_client, h, BdkError.toStr]
  · intro h; simp [create_blockchain_client, h, BdkError.toStr]
  · intro h; simp [create_blockchain_client, h]
  · intro h; simp [create_blockchain_client, h, RpcError.toStr]
  · intro ee h; simp [create_blockchain_client, h, BdkError.toStr]
  · intro h; simp [create_blockchain_client, h, BdkError.toStr]
  · intro d2 addr s5 k m h1 h2
    simp only [WalletConfig.new, h1, h2]
    simp [S5Error.new]
  · intro d2 addr s5 k m p0 p1 rest auth wn he hh hsp hpa hwn hcc
    simp only [WalletConfig.new, he, hh]
    rw [hsp]
    simp only [hpa]
    rw [hwn]
    simp only []
    rw [hcc]
    simp [S5Error.new]

/-- Claim C1, witness: the amended theorem applied to a concrete
environment with a failing Electrum construction. -/
theorem create_client_error_classification_w :
    create_blockchain_client env1
        (AnyBlockchainConfig.Electrum (electrumConfigOf DEFAULT_TESTNET_NODE none))
      = Except.error (S5Error.new ErrorKind.Network (chars "io down"))
    ∧ WalletConfig.new env1 (chars "wpkh(key/*)") (chars "ssl://electrum.node") none
      = RunResult.err (S5Error.new ErrorKind.Internal (chars "io down"))
    ∧ WalletConfig.new env1 (chars "wpkh(key/*)") (chars "http://node?auth=") none
      = RunResult.err (S5Error.new ErrorKind.Internal (chars "rpc down")) := by
  refine ⟨?_, ?_, ?_⟩
  · exact (create_client_error_classification env1
      (electrumConfigOf DEFAULT_TESTNET_NODE none)
      ⟨[], Auth.None, Network.Testnet, [], none⟩ (chars "io down") []).1 rfl
  · exact (create_client_error_classification env1
      (electrumConfigOf DEFAULT_TESTNET_NODE none)
      ⟨[], Auth.None, Network.Testnet, [], none⟩ (chars "io down") []).2.2.2.2.2.2.2.2.1
      (chars "wpkh(key/*)") (chars "ssl://electrum.node") none ErrorKind.Network (chars "io down")
      (by decide) rfl
  · exact (create_client_error_classification env1
      (electrumConfigOf DEFAULT_TESTNET_NODE none)
      ⟨[], Auth.None, Network.Testnet, [], none⟩ (chars "io down") []).2.2.2.2.2.2.2.2.2
      (chars "wpkh(key/*)") (chars "http://node?auth=") none ErrorKind.Internal (chars "rpc down")
      (chars "http://node") [] [] Auth.None (chars "w1")
      (by decide) (by decide) (by decide) rfl rfl rfl

/-- Claim C2: for a full-node-form address with a malformed auth segment
(the auth delimiter missing, or a non-empty credential segment with no
colon) the source does not fail with an error value: it indexes out of
bounds and panics, in WalletConfig.new (config.rs:80 and 85) and in
_check_client (config.rs:191 and 196) alike. -/
theorem malformed_auth_panics :
    WalletConfig.new env0 (chars "wpkh(x/*)") (chars "http://localhost") none = RunResult.panicked
    ∧ WalletConfig.new env0 (chars "wpkh(x/*)") (chars "http://host?auth=abc") none = RunResult.panicked
    ∧ _check_client env0 Network.Testnet (chars "http://host2?auth=nocolon") = RunResult.panicked
    ∧ _check_client env0 Network.Testnet (chars "http://nodelimiter") = RunResult.panicked := by
  decide

/-- Claim C3, counterexample: for the credential segment a:b:c, the code
takes the colon-separated fields at indices 0 and 1, so the password is b
(the text between the first and the second colon), not b:c (the text
after the first colon); the segment is therefore not split at the first
colon into username and password. -/
theorem auth_split_first_colon_cex :
    parseAuth (chars "a:b:c") = some (Auth.UserPass (chars "a") (chars "b"))
    ∧ parseAuth (chars "a:b:c") ≠ some (Auth.UserPass (chars "a") (chars "b:c")) := by
  decide

/-- Claim C3 (amended): an empty credential segment yields no
credentials; a segment of the form u:v with at most one colon is split
into username u and password v (in particular alice:secret yields
username alice and password secret); for a segment with two or more
colons the password is the field between the first and second colon, not
the whole remainder after the first colon. -/
theorem parseAuth_spec (u v w : Str) :
    (parseAuth [] = some Auth.None)
    ∧ (':' ∉ u → ':' ∉ v → parseAuth (u ++ ':' :: v) = some (Auth.UserPass u v))
    ∧ (':' ∉ u → ':' ∉ v → parseAuth (u ++ ':' :: (v ++ ':' :: w)) = some (Auth.UserPass u v)) := by
  refine ⟨rfl, ?_, ?_⟩
  · intro hu hv
    have hs : splitChar ':' (u ++ ':' :: v) = u :: [v] := by
      rw [splitChar_append ':' u v hu, splitChar_of_not_mem ':' v hv]
    have hne : (u ++ ':' :: v).isEmpty = false := by
      cases u <;> rfl
    simp [parseAuth, hne, hs]
  · intro hu hv
    have hs : splitChar ':' (u ++ ':' :: (v ++ ':' :: w)) = u :: v :: splitChar ':' w := by
      rw [splitChar_append ':' u (v ++ ':' :: w) hu, splitChar_append ':' v w hv]
    have hne : (u ++ ':' :: (v ++ ':' :: w)).isEmpty = false := by
      cases u <;> rfl
    simp [parseAuth, hne, hs]

/-- Claim C3, witness: the amended theorem applied to the credential
segment alice:secret. -/
theorem parseAuth_spec_w :
    parseAuth (chars "alice" ++ ':' :: chars "secret")
      = some (Auth.UserPass (chars "alice") (chars "secret")) :=
  (parseAuth_spec (chars "alice") (chars "secret") []).2.1 (by decide) (by decide)

/-- Claim C4: the inferred network of a resolved configuration is Bitcoin
(Main) if and only if the raw descriptor text contains the substring xpub
or the substring xprv, and is Testnet otherwise; on the online path the
network depends on nothing but the descriptor text (no other signal
overrides the heuristic). -/
theorem network_inference_spec (d : Str) (env : Env) (addr : Str) (s5 : Option Str) :
    (∀ cfg, WalletConfig.new_offline d = RunResult.ok cfg →
      ((cfg.network = Network.Bitcoin
          ↔ (strContains d (chars "xpub") = true ∨ strContains d (chars "xprv") = true))
        ∧ (cfg.network = Network.Bitcoin ∨ cfg.network = Network.Testnet)))
    ∧ (∀ cfg, WalletConfig.new env d addr s5 = RunResult.ok cfg →
        cfg.network = networkInference d) := by
  constructor
  · intro cfg h
    simp only [WalletConfig.new_offline] at h
    injection h with h
    subst h
    show (networkInference d = Network.Bitcoin ↔ _) ∧ _
    simp only [networkInference]
    by_cases hb : (strContains d (chars "xpub") || strContains d (chars "xprv")) = true
    · rw [if_pos hb]
      rw [Bool.or_eq_true] at hb
      exact ⟨⟨fun _ => hb, fun _ => rfl⟩, Or.inl rfl⟩
    · rw [if_neg hb]
      rw [Bool.or_eq_true] at hb
      refine ⟨⟨fun hx => absurd hx (by decide), fun hx => absurd hx hb⟩, Or.inr rfl⟩
  · intro cfg h
    exact (new_ok_fields env d addr s5 cfg h).2.2.1

/-- Claim C4, witness: a descriptor containing xpub resolves offline to
the Bitcoin network, and a plain descriptor resolves online (against the
benign environment) to the network inferred from its text. -/
theorem network_inference_spec_w :
    (((⟨chars "xpubA", chars "xpubA", Network.Bitcoin, none⟩ : WalletConfig).network = Network.Bitcoin
        ↔ (strContains (chars "xpubA") (chars "xpub") = true
            ∨ strContains (chars "xpubA") (chars "xprv") = true)))
    ∧ (⟨chars "k/0/*", chars "k/1/*", Network.Testnet, some (AnyBlockchain.Electrum ⟨0⟩)⟩
        : WalletConfig).network = networkInference (chars "k/*") := by
  constructor
  · exact ((network_inference_spec (chars "xpubA") env0 DEFAULT_TESTNET_NODE none).1
      ⟨chars "xpubA", chars "xpubA", Network.Bitcoin, none⟩ (by decide)).1
  · exact (network_inference_spec (chars "k/*") env0 DEFAULT_TESTNET_NODE none).2
      ⟨chars "k/0/*", chars "k/1/*", Network.Testnet, some (AnyBlockchain.Electrum ⟨0⟩)⟩ (by decide)

/-- Claim C5: for a descriptor with exactly one wildcard marker
(decomposed as a marker-free prefix, the marker, and a marker-free
suffix), the deposit descriptor replaces the marker by the branch-0
marker and the change descriptor by the branch-1 marker, on the offline
and the online path alike and regardless of network; a descriptor with no
marker is passed through unchanged with no error. -/
theorem descriptor_derivation_spec (pre post d : Str) (env : Env) (addr : Str) (s5 : Option Str) :
    (strContains pre (chars "/*") = false → strContains post (chars "/*") = false →
      WalletConfig.new_offline (pre ++ chars "/*" ++ post)
        = RunResult.ok ⟨pre ++ chars "/0/*" ++ post, pre ++ chars "/1/*" ++ post,
            networkInference (pre ++ chars "/*" ++ post), none⟩)
    ∧ (strContains d (chars "/*") = false →
        WalletConfig.new_offline d = RunResult.ok ⟨d, d, networkInference d, none⟩)
    ∧ (∀ cfg, strContains pre (chars "/*") = false → strContains post (chars "/*") = false →
        WalletConfig.new env (pre ++ chars "/*" ++ post) addr s5 = RunResult.ok cfg →
        cfg.deposit_desc = pre ++ chars "/0/*" ++ post
        ∧ cfg.change_desc = pre ++ chars "/1/*" ++ post) := by
  have hrepl : ∀ rep : Str, strContains pre (chars "/*") = false →
      strContains post (chars "/*") = false →
      replaceWildcard rep (pre ++ chars "/*" ++ post) = pre ++ rep ++ post := by
    intro rep h1 h2
    have hsh : pre ++ chars "/*" ++ post = pre ++ '/' :: '*' :: post := by
      rw [chars_wildcard]; simp
    rw [hsh, replaceWildcard_once rep pre post h1, replaceWildcard_id rep post h2]
  refine ⟨?_, ?_, ?_⟩
  · intro h1 h2
    simp only [WalletConfig.new_offline]
    rw [hrepl _ h1 h2, hrepl _ h1 h2]
  · intro h
    simp only [WalletConfig.new_offline]
    rw [replaceWildcard_id _ d h, replaceWildcard_id _ d h]
  · intro cfg h1 h2 h
    obtain ⟨hd, hc, _, _⟩ := new_ok_fields env _ addr s5 cfg h
    rw [hd, hc, hrepl _ h1 h2, hrepl _ h1 h2]
    exact ⟨rfl, rfl⟩

/-- Claim C5, witness: the derivation theorem applied to the concrete
descriptor wpkh(k followed by the marker followed by a closing paren. -/
theorem descriptor_derivation_spec_w :
    WalletConfig.new_offline (chars "wpkh(k" ++ chars "/*" ++ chars ")")
      = RunResult.ok ⟨chars "wpkh(k" ++ chars "/0/*" ++ chars ")",
          chars "wpkh(k" ++ chars "/1/*" ++ chars ")",
          networkInference (chars "wpkh(k" ++ chars "/*" ++ chars ")"), none⟩
    ∧ WalletConfig.new_offline (chars "nomarker")
      = RunResult.ok ⟨chars "nomarker", chars "nomarker", networkInference (chars "nomarker"), none⟩ := by
  constructor
  · exact (descriptor_derivation_spec (chars "wpkh(k") (chars ")") (chars "nomarker")
      env0 DEFAULT_TESTNET_NODE none).1 (by decide) (by decide)
  · exact (descriptor_derivation_spec (chars "wpkh(k") (chars ")") (chars "nomarker")
      env0 DEFAULT_TESTNET_NODE none).2.1 (by decide)

/-- Claim C6: an address containing the sentinel token default resolves
to the fixed mainnet endpoint when the inferred network is Bitcoin and to
the fixed testnet endpoint otherwise, and resolution behaves exactly as
if that default endpoint had been supplied; an address without the
sentinel passes through unmodified. -/
theorem default_node_resolution_spec (env : Env) (d addr : Str) (s5 : Option Str) (n : Network) :
    (strContains addr DEFAULT = true →
      (resolveNodeAddress Network.Bitcoin addr = DEFAULT_MAINNET_NODE
        ∧ resolveNodeAddress Network.Testnet addr = DEFAULT_TESTNET_NODE
        ∧ WalletConfig.new env d addr s5
            = WalletConfig.new env d
                (match networkInference d with
                  | Network.Bitcoin => DEFAULT_MAINNET_NODE
                  | _ => DEFAULT_TESTNET_NODE) s5))
    ∧ (strContains addr DEFAULT = false → resolveNodeAddress n addr = addr) := by
  constructor
  · intro h
    refine ⟨by simp [resolveNodeAddress, h], by simp [resolveNodeAddress, h], ?_⟩
    apply new_addr_congr
    cases hn : networkInference d with
    | Bitcoin =>
      simp [resolveNodeAddress, h, show strContains DEFAULT_MAINNET_NODE DEFAULT = false from by decide]
    | Testnet =>
      simp [resolveNodeAddress, h, show strContains DEFAULT_TESTNET_NODE DEFAULT = false from by decide]
    | Signet =>
      simp [resolveNodeAddress, h, show strContains DEFAULT_TESTNET_NODE DEFAULT = false from by decide]
    | Regtest =>
      simp [resolveNodeAddress, h, show strContains DEFAULT_TESTNET_NODE DEFAULT = false from by decide]
  · intro h
    simp [resolveNodeAddress, h]

/-- Claim C6, witness: the resolution theorem applied to the literal
sentinel address default. -/
theorem default_node_resolution_spec_w :
    resolveNodeAddress Network.Bitcoin (chars "default") = DEFAULT_MAINNET_NODE
    ∧ resolveNodeAddress Network.Testnet (chars "default") = DEFAULT_TESTNET_NODE
    ∧ WalletConfig.new env0 (chars "w/*") (chars "default") none
        = WalletConfig.new env0 (chars "w/*")
            (match networkInference (chars "w/*") with
              | Network.Bitcoin => DEFAULT_MAINNET_NODE
              | _ => DEFAULT_TESTNET_NODE) none :=
  (default_node_resolution_spec env0 (chars "w/*") (chars "default") none Network.Testnet).1
    (by decide)

/-- Claim C7: the client field is None exactly when resolution was
requested in offline mode: offline resolution always returns no client
while computing descriptors and network identically to the online path,
and every successful online resolution carries a client handle, so
partial success is not representable. -/
theorem offline_client_none_spec (env : Env) (d addr : Str) (s5 : Option Str)
    (cfg cfg2 : WalletConfig) :
    (WalletConfig.new_offline d = RunResult.ok cfg → cfg.client = none)
    ∧ (WalletConfig.new env d addr s5 = RunResult.ok cfg2 → cfg2.client.isSome = true)
    ∧ (WalletConfig.new_offline d = RunResult.ok cfg →
        WalletConfig.new env d addr s5 = RunResult.ok cfg2 →
        cfg.deposit_desc = cfg2.deposit_desc
        ∧ cfg.change_desc = cfg2.change_desc
        ∧ cfg.network = cfg2.network) := by
  refine ⟨?_, ?_, ?_⟩
  · intro h
    simp only [WalletConfig.new_offline] at h
    injection h with h
    subst h
    rfl
  · intro h
    obtain ⟨_, _, _, c, hc⟩ := new_ok_fields env d addr s5 cfg2 h
    rw [hc]
    rfl
  · intro h1 h2
    simp only [WalletConfig.new_offline] at h1
    injection h1 with h1
    subst h1
    obtain ⟨hd, hc, hn, _⟩ := new_ok_fields env d addr s5 cfg2 h2
    exact ⟨hd.symm, hc.symm, hn.symm⟩

/-- Claim C7, witness: offline resolution of k/* carries no client while
online resolution against the benign environment carries one, with equal
descriptors and network. -/
theorem offline_client_none_spec_w :
    (⟨chars "k/0/*", chars "k/1/*", Network.Testnet, none⟩ : WalletConfig).client = none
    ∧ (⟨chars "k/0/*", chars "k/1/*", Network.Testnet,
          some (AnyBlockchain.Electrum ⟨0⟩)⟩ : WalletConfig).client.isSome = true
    ∧ ((⟨chars "k/0/*", chars "k/1/*", Network.Testnet, none⟩ : WalletConfig).deposit_desc
        = (⟨chars "k/0/*", chars "k/1/*", Network.Testnet,
            some (AnyBlockchain.Electrum ⟨0⟩)⟩ : WalletConfig).deposit_desc) := by
  have hs := offline_client_none_spec env0 (chars "k/*") DEFAULT_TESTNET_NODE none
    ⟨chars "k/0/*", chars "k/1/*", Network.Testnet, none⟩
    ⟨chars "k/0/*", chars "k/1/*", Network.Testnet, some (AnyBlockchain.Electrum ⟨0⟩)⟩
  exact ⟨hs.1 (by decide), hs.2.1 (by decide), (hs.2.2 (by decide) (by decide)).1⟩

/-- Claim C8: an address that, after sentinel substitution, matches
neither the relay form nor the full-node form makes resolution and the
health probe fail with an Internal-kind error whose message is exactly
Invalid Node Address. -/
theorem invalid_address_spec (env : Env) (d addr : Str) (s5 : Option Str) (n : Network) :
    strContains addr DEFAULT = false →
    strContains addr (chars "electrum") = false →
    strContains addr (chars "http") = false →
    (WalletConfig.new env d addr s5
        = RunResult.err (S5Error.new ErrorKind.Internal (chars "Invalid Node Address."))
      ∧ _check_client env n addr
        = RunResult.err (S5Error.new ErrorKind.Internal (chars "Invalid Node Address."))) := by
  intro h1 h2 h3
  have hres : resolveNodeAddress (networkInference d) addr = addr := by
    simp [resolveNodeAddress, h1]
  constructor
  · simp only [WalletConfig.new, hres, h2, h3]
    simp
  · simp only [_check_client, h2, h3]
    simp

/-- Claim C8, witness: the invalid-address theorem applied to the
concrete address foo.onion. -/
theorem invalid_address_spec_w :
    WalletConfig.new env0 (chars "k/*") (chars "foo.onion") none
      = RunResult.err (S5Error.new ErrorKind.Internal (chars "Invalid Node Address."))
    ∧ _check_client env0 Network.Testnet (chars "foo.onion")
      = RunResult.err (S5Error.new ErrorKind.Internal (chars "Invalid Node Address.")) :=
  invalid_address_spec env0 (chars "k/*") (chars "foo.onion") none Network.Testnet
    (by decide) (by decide) (by decide)

/-- Claim C9, counterexample: the health probe does not return a
classified error for every failure: on a full-node-form address without
the auth delimiter it indexes out of bounds and panics (config.rs:191)
before any client is built or any fee estimate issued. -/
theorem health_probe_panics_cex :
    _check_client env0 Network.Bitcoin (chars "http://probe") = RunResult.panicked := by
  decide

/-- Claim C9 (amended): for every network and node address whose
full-node auth segment is well formed (a missing auth delimiter or a
colon-free non-empty credential segment panics instead, see C2), the
health probe builds a throwaway client by the same dispatch logic as
resolution, using the identical Electrum configuration and, for the
full-node form, the fixed placeholder wallet identifier ping instead of a
derived one, issues a single fee-estimate call with a 1-block
confirmation target, returns true exactly when that call succeeds, and
returns a classified error value on construction or estimation
failure. -/
theorem health_probe_spec (env : Env) (n : Network) (addr : Str) :
    ((⟨addr, none, 1, some 5, 1000⟩ : ElectrumBlockchainConfig) = electrumConfigOf addr none)
    ∧ (∀ b, _check_client env n addr = RunResult.ok b → b = true)
    ∧ (strContains addr (chars "electrum") = true →
        ((∀ client, create_blockchain_client env
            (AnyBlockchainConfig.Electrum ⟨addr, none, 1, some 5, 1000⟩) = Except.ok client →
          _check_client env n addr
            = (match env.estimate_fee client 1 with
                | Except.ok _ => RunResult.ok true
                | Except.error e => RunResult.err (S5Error.new ErrorKind.Network e.toStr)))
        ∧ (∀ e, create_blockchain_client env
            (AnyBlockchainConfig.Electrum ⟨addr, none, 1, some 5, 1000⟩) = Except.error e →
          _check_client env n addr = RunResult.err (S5Error.new ErrorKind.Internal e.message))))
    ∧ (strContains addr (chars "electrum") = false → strContains addr (chars "http") = true →
        ∀ p0 p1 rest auth, splitOnStr addr (chars "?auth=") = p0 :: p1 :: rest →
          parseAuth p1 = some auth →
          ((∀ client, create_blockchain_client env
              (AnyBlockchainConfig.Rpc ⟨p0, auth, n, chars "ping", none⟩) = Except.ok client →
            _check_client env n addr
              = (match env.estimate_fee client 1 with
                  | Except.ok _ => RunResult.ok true
                  | Except.error e => RunResult.err (S5Error.new ErrorKind.Network e.toStr)))
          ∧ (∀ e, create_blockchain_client env
              (AnyBlockchainConfig.Rpc ⟨p0, auth, n, chars "ping", none⟩) = Except.error e →
            _check_client env n addr = RunResult.err (S5Error.new ErrorKind.Internal e.message)))) := by
  refine ⟨rfl, ?_, ?_, ?_⟩
  · intro b h
    simp only [_check_client] at h
    split at h
    · split at h
      · injection h with h
        exact h.symm
      · exact absurd h (by simp)
    · exact absurd h (by simp)
    · exact absurd h (by simp)
  · intro he
    constructor
    · intro client hcc
      simp only [_check_client, he]
      rw [hcc]
      simp
    · intro e hcc
      simp only [_check_client, he]
      rw [hcc]
      simp
  · intro he hh p0 p1 rest auth hsp hpa
    constructor
    · intro client hcc
      simp only [_check_client, he, hh]
      rw [hsp]
      simp only [hpa]
      rw [hcc]
      simp
    · intro e hcc
      simp only [_check_client, he, hh]
      rw [hsp]
      simp only [hpa]
      rw [hcc]
      simp

/-- Claim C9, witness: the probe theorem applied to the default testnet
endpoint against the benign environment confirms liveness. -/
theorem health_probe_spec_w :
    _check_client env0 Network.Testnet DEFAULT_TESTNET_NODE = RunResult.ok true := by
  have h := ((health_probe_spec env0 Network.Testnet DEFAULT_TESTNET_NODE).2.2.1
    (by decide)).1 (AnyBlockchain.Electrum ⟨0⟩) rfl
  exact h.trans (by rfl)

/-- Claim C10: an address containing the relay token dispatches to the
relay backend regardless of whether it also contains the full-node token,
because the relay check runs first; and an address containing the
sentinel default always resolves to a default endpoint that itself
contains the relay token, so it is dispatched to the relay backend and
can never reach the full-node branch or the invalid-address error. -/
theorem relay_priority_spec (env : Env) (d addr : Str) (s5 : Option Str) :
    (strContains addr DEFAULT = false → strContains addr (chars "electrum") = true →
      WalletConfig.new env d addr s5
        = (match create_blockchain_client env
              (AnyBlockchainConfig.Electrum (electrumConfigOf addr s5)) with
            | Except.error e => RunResult.err (S5Error.new ErrorKind.Internal e.message)
            | Except.ok client =>
              RunResult.ok ⟨replaceWildcard (chars "/0/*") d, replaceWildcard (chars "/1/*") d,
                networkInference d, some client⟩))
    ∧ (strContains addr DEFAULT = true →
      strContains (resolveNodeAddress (networkInference d) addr) (chars "electrum") = true
      ∧ WalletConfig.new env d addr s5
        = (match create_blockchain_client env (AnyBlockchainConfig.Electrum
              (electrumConfigOf (resolveNodeAddress (networkInference d) addr) s5)) with
            | Except.error e => RunResult.err (S5Error.new ErrorKind.Internal e.message)
            | Except.ok client =>
              RunResult.ok ⟨replaceWildcard (chars "/0/*") d, replaceWildcard (chars "/1/*") d,
                networkInference d, some client⟩)) := by
  constructor
  · intro h1 h2
    have hres : resolveNodeAddress (networkInference d) addr = addr := by
      simp [resolveNodeAddress, h1]
    simp only [WalletConfig.new, hres, h2]
    simp
  · intro h
    have he : strContains (resolveNodeAddress (networkInference d) addr) (chars "electrum") = true := by
      cases networkInference d <;> simp [resolveNodeAddress, h] <;> decide
    refine ⟨he, ?_⟩
    simp only [WalletConfig.new, he]
    simp

/-- Claim C10, witness: an address containing both the relay token and
the full-node token is dispatched to the relay backend, and the sentinel
address is dispatched to the relay default. -/
theorem relay_priority_spec_w :
    WalletConfig.new env0 (chars "d/*") (chars "http://electrum.host") none
      = (match create_blockchain_client env0
            (AnyBlockchainConfig.Electrum (electrumConfigOf (chars "http://electrum.host") none)) with
          | Except.error e => RunResult.err (S5Error.new ErrorKind.Internal e.message)
          | Except.ok client =>
            RunResult.ok ⟨replaceWildcard (chars "/0/*") (chars "d/*"),
              replaceWildcard (chars "/1/*") (chars "d/*"),
              networkInference (chars "d/*"), some client⟩)
    ∧ strContains (resolveNodeAddress (networkInference (chars "d/*")) (chars "default"))
        (chars "electrum") = true := by
  constructor
  · exact (relay_priority_spec env0 (chars "d/*") (chars "http://electrum.host") none).1
      (by decide) (by decide)
  · exact ((relay_priority_spec env0 (chars "d/*") (chars "default") none).2 (by decide)).1

end Stackmate
